import Mathlib

/-!
Shallow embedding of the data synchronization layer of the school-platform
repository: the browser local storage model, the JSON subset the managed
payloads use, the StorageAdapter write interception, the DataService cache,
the DataSync merge, the AuthService sign-out cleanup and the SyncService
startup merge, debounce and push path.  Each definition is translated from
the JavaScript source file named in its doc comment.
-/

/-- Browser localStorage content: association list from keys to string values,
most recent binding first.  setItem replaces any previous binding. -/
abbrev LocalStorage := List (String × String)

/-- Rows of the user_data table for one owner: pairs of data_key and
data_value.  The owner id and updated_at columns are fixed respectively
irrelevant to the claims and are not modelled. -/
abbrev RemoteRows := List (String × String)

/-- Association list lookup, generic in the value type; models both
localStorage.getItem (value type String, JS null becoming none) and JS object
property access on a decoded row map. -/
def assocFind {α : Type} : List (String × α) → String → Option α
  | [], _ => none
  | p :: ps, k => if p.1 = k then some p.2 else assocFind ps k

/-- Lookup in a localStorage model: localStorage.getItem. -/
def getItem (l : LocalStorage) (k : String) : Option String := assocFind l k

/-- Remove every binding of key k. -/
def eraseKey {α : Type} : List (String × α) → String → List (String × α)
  | [], _ => []
  | p :: ps, k => if p.1 = k then eraseKey ps k else p :: eraseKey ps k

/-- localStorage.setItem: bind k to v, replacing any previous binding.  Also
models an upsert keyed by data_key on the remote row model and assignment to
a JS map or object property. -/
def setItem {α : Type} (l : List (String × α)) (k : String) (v : α) :
    List (String × α) :=
  (k, v) :: eraseKey l k

/-- localStorage.removeItem. -/
def removeItem (l : LocalStorage) (k : String) : LocalStorage := eraseKey l k

/-- Character-list test that pre is a prefix of the second list; models the
String.prototype.startsWith calls of the source. -/
def strPfx : List Char → List Char → Bool
  | [], _ => true
  | _ :: _, [] => false
  | c :: cs, d :: ds => c == d && strPfx cs ds

/-- String level wrapper of strPfx: key.startsWith pre in the source. -/
def keyHasPfx (pre s : String) : Bool := strPfx pre.toList s.toList

/-- JS values as stored in the managed record sets: null, strings and plain
objects.  This is the subset the managed payloads and the claims use. -/
inductive JSVal where
  | null : JSVal
  | str : String → JSVal
  | obj : List (String × JSVal) → JSVal

/-- Opening brace character. -/
def lbrace : Char := Char.ofNat 123

/-- Closing brace character. -/
def rbrace : Char := Char.ofNat 125

/-- Scan the body of a JSON string literal up to the closing double quote.
Escape sequences are not modelled; the payloads in the claims use none. -/
def scanStr : List Char → Option (String × List Char)
  | [] => none
  | c :: cs =>
    if c = '"' then some ("", cs)
    else
      match scanStr cs with
      | some (s, rest) => some (String.singleton c ++ s, rest)
      | none => none

/-- Fuel-indexed recursive descent parser for the JSON subset: null, string
literals and objects with string keys.  Mode false parses one value; mode
true parses the members of an object after the opening brace.  Models the
platform JSON.parse on this subset; strings outside the subset fail, as a
malformed string fails in JSON.parse. -/
def parseJ : Nat → Bool → List Char → Option (JSVal × List Char)
  | 0, _, _ => none
  | _ + 1, false, [] => none
  | fuel + 1, false, c :: cs =>
    if c = '"' then
      match scanStr cs with
      | some (s, rest) => some (JSVal.str s, rest)
      | none => none
    else if c = 'n' then
      match cs with
      | 'u' :: 'l' :: 'l' :: rest => some (JSVal.null, rest)
      | _ => none
    else if c = lbrace then
      match cs with
      | [] => none
      | d :: ds =>
        if d = rbrace then some (JSVal.obj [], ds)
        else parseJ fuel true (d :: ds)
    else none
  | _ + 1, true, [] => none
  | fuel + 1, true, c :: cs =>
    if c = '"' then
      match scanStr cs with
      | some (key, rest) =>
        match rest with
        | ':' :: rest2 =>
          match parseJ fuel false rest2 with
          | some (v, rest3) =>
            match rest3 with
            | [] => none
            | e :: rest4 =>
              if e = ',' then
                match parseJ fuel true rest4 with
                | some (JSVal.obj fs, rest5) => some (JSVal.obj ((key, v) :: fs), rest5)
                | _ => none
              else if e = rbrace then some (JSVal.obj [(key, v)], rest4)
              else none
          | none => none
        | _ => none
      | none => none
    else none

/-- JSON.parse on the modelled subset: the whole string must be consumed. -/
def jsonParse (s : String) : Option JSVal :=
  match parseJ (s.length + 1) false s.toList with
  | some (v, []) => some v
  | _ => none

mutual
/-- JSON.stringify on the modelled subset. -/
def jsonStringify : JSVal → String
  | JSVal.null => "null"
  | JSVal.str s => "\"" ++ s ++ "\""
  | JSVal.obj fs => "\x7b" ++ stringifyFields fs ++ "\x7d"

/-- Comma separated field list of an object body for jsonStringify. -/
def stringifyFields : List (String × JSVal) → String
  | [] => ""
  | [(k, v)] => "\"" ++ k ++ "\":" ++ jsonStringify v
  | (k, v) :: fs => "\"" ++ k ++ "\":" ++ jsonStringify v ++ "," ++ stringifyFields fs
end

namespace SyncService

/-- Fixed enumeration of managed keys of SyncService (part_006 constructor). -/
def storageKeys : List String :=
  ["schoolPlatform_classRecords", "schoolPlatform_studentProfiles",
   "schoolPlatform_teacherProfile", "schoolPlatform_attendance"]

/-- JS truthiness of a getItem result: null and the empty string are falsy. -/
def truthy : Option String → Bool
  | none => false
  | some s => !(s == "")

/-- Emptiness test used per key inside the merge loop of loadFromSupabase:
a value is treated as empty when it is absent, the empty string, the
serialized empty object or the serialized empty array. -/
def emptyish : Option String → Bool
  | none => true
  | some s => s == "" || s == "\x7b\x7d" || s == "[]"

/-- Emptiness test used by the localDataExists check of loadFromSupabase,
which additionally treats the string null as empty. -/
def nonEmptyLocalCheck : Option String → Bool
  | none => false
  | some s => !(s == "" || s == "\x7b\x7d" || s == "[]" || s == "null")

/-- Remote effect of syncToSupabase on the happy path: sync enabled, a user
present, no push already in flight and the network call succeeding.  The
upsert is keyed by data_key for the fixed owner; updated_at is not
modelled. -/
def upsertRow (remote : RemoteRows) (key value : String) : RemoteRows :=
  setItem remote key value

/-- Map of server rows built by loadFromSupabase before its merge loop: rows
with a falsy data_key or data_value are skipped, later rows override earlier
ones with the same key. -/
def buildServerDataMap (rows : RemoteRows) : RemoteRows :=
  rows.foldl (fun m p => if !(p.1 == "") && !(p.2 == "") then setItem m p.1 p.2 else m) []

/-- One iteration of the merge loop of loadFromSupabase over a storage key,
acting on the pair of local storage and remote rows; snap is the server data
map built from the fetched rows before the loop started. -/
def mergeKeyStep (snap : RemoteRows) (st : LocalStorage × RemoteRows) (key : String) :
    LocalStorage × RemoteRows :=
  let localData := getItem st.1 key
  let serverData := getItem snap key
  if truthy serverData && emptyish localData then
    (setItem st.1 key (serverData.getD ""), st.2)
  else if truthy localData && emptyish serverData then
    (st.1, upsertRow st.2 key (localData.getD ""))
  else if truthy serverData && truthy localData then
    (setItem st.1 key (serverData.getD ""), st.2)
  else st

/-- Startup merge loadFromSupabase of part_006, on the happy network path.
Returns the new local storage, the new remote rows and the boolean result of
the method.  In the branch where the server has no rows but local data
exists, the source logs that it will upload the local data and then calls
this.saveToSupabase, a method that does not exist on the class; the resulting
TypeError is caught by the surrounding catch, which returns false, so no
upload happens and both stores are left unchanged. -/
def loadFromSupabase (localStore : LocalStorage) (remote : RemoteRows) :
    LocalStorage × RemoteRows × Bool :=
  let hasServerData := !remote.isEmpty
  let localDataExists := storageKeys.any (fun k => nonEmptyLocalCheck (getItem localStore k))
  if hasServerData then
    if localDataExists then
      let snap := buildServerDataMap remote
      let st := storageKeys.foldl (mergeKeyStep snap) (localStore, remote)
      (st.1, st.2, true)
    else
      let local2 := remote.foldl
        (fun l p => if !(p.1 == "") && !(p.2 == "") then setItem l p.1 p.2 else l) localStore
      (local2, remote, true)
  else if localDataExists then
    (localStore, remote, false)
  else
    (localStore, remote, true)

/-- Read of one key from the server, syncFromSupabase of part_006: the row
for the key when present with a truthy value, otherwise null. -/
def syncFromSupabase (remote : RemoteRows) (key : String) : Option String :=
  match getItem remote key with
  | some v => if !(v == "") then some v else none
  | none => none

/-- Enhanced getter getData of part_006.  Reads local storage first; when the
value is falsy and sync is enabled it consults the server and caches a truthy
result locally.  A stored string that fails JSON.parse is caught and the raw
string itself is returned. -/
def getData (isEnabled : Bool) (localStore : LocalStorage) (remote : RemoteRows)
    (key : String) (defaultValue : JSVal) : JSVal × LocalStorage :=
  let data0 := getItem localStore key
  let step :=
    if !(truthy data0) && isEnabled then
      match syncFromSupabase remote key with
      | some s => (some s, setItem localStore key s)
      | none => (data0, localStore)
    else (data0, localStore)
  match step.1 with
  | none => (defaultValue, step.2)
  | some s =>
    if s == "" then (defaultValue, step.2)
    else
      match jsonParse s with
      | some v => (v, step.2)
      | none => (JSVal.str s, step.2)

/-- Debounce state of enableAutoSync: the single shared syncTimeout field
holding the pending push, which every new managed write replaces. -/
structure AutoSyncState where
  syncTimeout : Option (String × String)
deriving DecidableEq

/-- Overridden localStorage.setItem installed by enableAutoSync, restricted
to its effect on the debounce state: clearTimeout on the shared syncTimeout
followed by scheduling a push of the written key and value; writes to keys
outside storageKeys leave the timer untouched. -/
def autoSyncWrite (s : AutoSyncState) (key value : String) : AutoSyncState :=
  if key ∈ storageKeys then { syncTimeout := some (key, value) } else s

/-- Pushes issued once a quiet period longer than the debounce window has
elapsed after a burst of writes: the surviving timer, if any, fires once. -/
def pushesAfterQuiet (writes : List (String × String)) : List (String × String) :=
  ((writes.foldl (fun s p => autoSyncWrite s p.1 p.2) ⟨none⟩).syncTimeout).toList

/-- State of the push path of syncToSupabase across a trace of events: the
re-entrancy flag syncInProgress, the pushes currently in flight, the remote
rows, and the pushes that returned false at the guard and were dropped. -/
structure PushTraceState where
  syncInProgress : Bool
  inFlight : List (String × String)
  remote : RemoteRows
  droppedPushes : List (String × String)
deriving DecidableEq

/-- Events of the push path: a call of syncToSupabase for a key and value,
and the settling of the oldest in-flight push (its await completing). -/
inductive PushEvent where
  | callSync (key value : String)
  | settle
deriving DecidableEq

/-- One step of the push path.  A call while syncInProgress is set returns
false at the guard: the value is recorded as dropped and nothing else
happens; no follow-up push is queued anywhere in the source.  Otherwise the
flag is set and the push goes in flight.  Settling clears the flag in the
finally block and applies the upsert. -/
def pushStep (s : PushTraceState) : PushEvent → PushTraceState
  | PushEvent.callSync k v =>
    if s.syncInProgress then { s with droppedPushes := s.droppedPushes ++ [(k, v)] }
    else { s with syncInProgress := true, inFlight := s.inFlight ++ [(k, v)] }
  | PushEvent.settle =>
    match s.inFlight with
    | [] => s
    | (k, v) :: rest =>
      { s with syncInProgress := false, inFlight := rest, remote := upsertRow s.remote k v }

/-- Run of a trace of push events from the initial state. -/
def runPushTrace (evts : List PushEvent) : PushTraceState :=
  evts.foldl pushStep
    { syncInProgress := false, inFlight := [], remote := [], droppedPushes := [] }

/-- Initialization state of SyncService: the isInitialized guard and the
isEnabled flag. -/
structure InitState where
  isInitialized : Bool
  isEnabled : Bool
deriving DecidableEq

/-- Method initialize of part_006.  When isInitialized is already set it
returns at once with the cached isEnabled, without re-checking whether a
user is authenticated; otherwise it sets isEnabled from the presence of an
authenticated user when the supabase library is available. -/
def initializeService (s : InitState) (supabaseAvailable userPresent : Bool) : InitState :=
  if s.isInitialized then s
  else if supabaseAvailable then { isInitialized := true, isEnabled := userPresent }
  else { isInitialized := true, isEnabled := false }

/-- Listener registered on the authStateChanged window event in part_006: it
awaits initialize again (and, when enabled, reloads data, which does not
change the initialization state). -/
def onAuthStateChanged (s : InitState) (supabaseAvailable userPresent : Bool) : InitState :=
  initializeService s supabaseAvailable userPresent

end SyncService





namespace StorageAdapter

/-- Managed key test of part_003: the key starts with schoolPlatform_. -/
def isManagedKey (key : String) : Bool := keyHasPfx "schoolPlatform_" key

/-- Key routing inside syncToSupabase of part_003: the keys that reach one of
the dataService setters and hence an upsert.  A key that matches none of the
branches falls through the routing and no remote operation is issued. -/
def routesToDataService (key : String) : Bool :=
  key == "schoolPlatform_studentProfiles" || key == "schoolPlatform_classRecords" ||
  keyHasPfx "schoolPlatform_assessmentConfig_" key || key == "schoolPlatform_attendance" ||
  key == "schoolPlatform_teacherProfile"

/-- Remote effect of the fire-and-forget syncToSupabase of part_003.  When
the caller is not authenticated the function returns before any remote call;
when the network push fails the error is caught by the internal catch and the
remote rows stay as they were; a value that fails JSON.parse raises inside
the try and is caught the same way.  On the happy path a routed key is
upserted; the row value records the written payload, with the falsy value
decoding to the empty object as in the source.  The structured row shape the
dataService setters use is abstracted to the serialized payload. -/
def syncToSupabase (remote : RemoteRows) (authenticated pushFails : Bool)
    (key value : String) : RemoteRows :=
  if !authenticated then remote
  else if pushFails then remote
  else if routesToDataService key then
    if value == "" then SyncService.upsertRow remote key "\x7b\x7d"
    else
      match jsonParse value with
      | some _ => SyncService.upsertRow remote key value
      | none => remote
  else remote

/-- Overridden window.localStorage.setItem of part_003: the original setter
runs first, then a managed key is mirrored by the fire-and-forget async
syncToSupabase whose errors are all caught internally (and which, being
called without await, could not throw into the caller anyway).  The third
component records whether an exception propagated to the caller of setItem:
it never does. -/
def overriddenSetItem (localStore : LocalStorage) (remote : RemoteRows)
    (authenticated pushFails : Bool) (key value : String) :
    LocalStorage × RemoteRows × Bool :=
  let local2 := setItem localStore key value
  if isManagedKey key then
    (local2, syncToSupabase remote authenticated pushFails key value, false)
  else (local2, remote, false)

end StorageAdapter

namespace DataService

/-- Value level cache of DataService: the Map from keys to parsed values. -/
abbrev ValCache := List (String × JSVal)

/-- Method get of DataService (second part of AuthService.js), at value
level: the cache is consulted first; otherwise the stored string is parsed,
a parse error is caught and the default returned, and a successful parse is
cached.  Returns the result and the new cache. -/
def get (cache : ValCache) (localStore : LocalStorage) (key : String)
    (defaultValue : JSVal) : JSVal × ValCache :=
  match assocFind cache key with
  | some v => (v, cache)
  | none =>
    match getItem localStore key with
    | none => (defaultValue, cache)
    | some stored =>
      match jsonParse stored with
      | some parsed => (parsed, setItem cache key parsed)
      | none => (defaultValue, cache)

/-- JS heap for the reference level model: objects indexed by reference. -/
abbrev Heap := List JSVal

/-- Dereference; an out of range reference yields null. -/
def heapGet (h : Heap) (r : Nat) : JSVal := (h.get? r).getD JSVal.null

/-- In-place mutation of the object a reference points to. -/
def heapSet (h : Heap) (r : Nat) (v : JSVal) : Heap := h.set r v

/-- Reference level cache of DataService: the Map stores object references,
not copies. -/
abbrev RefCache := List (String × Nat)

/-- Method set of DataService at reference level: the payload object is
serialized into local storage while the cache keeps the reference to the very
object passed by the caller. -/
def setH (cache : RefCache) (localStore : LocalStorage) (h : Heap) (key : String)
    (r : Nat) : RefCache × LocalStorage :=
  (setItem cache key r, setItem localStore key (jsonStringify (heapGet h r)))

/-- Method get of DataService at reference level: a cache hit returns the
stored reference itself without touching local storage; a miss parses the
stored string into a freshly allocated object and caches it.  Returns the
reference of the result, or none when the method returns the caller supplied
default, together with the possibly extended heap. -/
def getH (cache : RefCache) (localStore : LocalStorage) (h : Heap) (key : String) :
    Option Nat × Heap :=
  match assocFind cache key with
  | some r => (some r, h)
  | none =>
    match getItem localStore key with
    | none => (none, h)
    | some stored =>
      match jsonParse stored with
      | some parsed => (some h.length, h ++ [parsed])
      | none => (none, h)

end DataService

namespace DataSync

/-- Data types mergeData of data-sync.js iterates over. -/
def dataTypes : List String :=
  ["classRecords", "studentProfiles", "teacherProfile", "attendance", "grades"]

/-- Method getLocalData of data-sync.js: parse the stored string, returning
the empty object when the key is absent, the value falsy, or JSON.parse
throws (the catch returns the empty object). -/
def getLocalData (localStore : LocalStorage) (key : String) : JSVal :=
  match getItem localStore key with
  | none => JSVal.obj []
  | some s =>
    if s == "" then JSVal.obj []
    else
      match jsonParse s with
      | some v => v
      | none => JSVal.obj []

/-- JS truthiness of a value read from the backend data object. -/
def jsTruthy : JSVal → Bool
  | JSVal.null => false
  | JSVal.str s => !(s == "")
  | JSVal.obj _ => true

/-- Top level fields of a value for the object spread; spreading null yields
no fields, and the managed payloads are objects. -/
def objFields : JSVal → List (String × JSVal)
  | JSVal.obj fs => fs
  | _ => []

/-- JS object spread of two field lists, as in the mergeData expression that
spreads the existing data and then the backend data: fields of the first
list keep their position but are overridden by a field of the same name in
the second list, whose remaining fields are appended. -/
def spreadMerge (a b : List (String × JSVal)) : List (String × JSVal) :=
  (a.map fun p =>
    match assocFind b p.1 with
    | some w => (p.1, w)
    | none => p) ++
  b.filter fun q => !(a.any fun p => p.1 == q.1)

/-- One iteration of mergeData over a data type name: when the backend object
holds a truthy value for it, the local value is parsed, spread-merged with
the backend value (backend fields taking precedence) and written back. -/
def mergeDataStep (backendData : List (String × JSVal)) (localStore : LocalStorage)
    (t : String) : LocalStorage :=
  match assocFind backendData t with
  | some bv =>
    if jsTruthy bv then
      let localKey := "schoolPlatform_" ++ t
      let existingData := getLocalData localStore localKey
      let merged := JSVal.obj (spreadMerge (objFields existingData) (objFields bv))
      setItem localStore localKey (jsonStringify merged)
    else localStore
  | none => localStore

/-- Method mergeData of data-sync.js: fold of mergeDataStep over the fixed
data type list. -/
def mergeData (backendData : List (String × JSVal)) (localStore : LocalStorage) :
    LocalStorage :=
  dataTypes.foldl (mergeDataStep backendData) localStore

end DataSync

namespace AuthService

/-- Predicate on keys collected by clearAllLocalData: the key starts with
schoolPlatform_ or with supabase. -/
def clearablePred (key : String) : Bool :=
  keyHasPfx "schoolPlatform_" key || keyHasPfx "supabase." key

/-- Keys collected by the scan loop of clearAllLocalData. -/
def keysToRemove (localStore : LocalStorage) : List String :=
  (localStore.filter fun p => clearablePred p.1).map Prod.fst

/-- Method clearAllLocalData of AuthService.js: collect every stored key with
one of the two prefixes, then remove each collected key.  The sessionStorage
clearing is not modelled. -/
def clearAllLocalData (localStore : LocalStorage) : LocalStorage :=
  (keysToRemove localStore).foldl removeItem localStore

end AuthService


/-- Invariant of the push trace: exactly one push is in flight while the
syncInProgress flag is set, none otherwise. -/
def pushInv (s : SyncService.PushTraceState) : Prop :=
  s.inFlight.length = (if s.syncInProgress then 1 else 0)

theorem assocFind_eraseKey {α : Type} (l : List (String × α)) (k k' : String) :
    assocFind (eraseKey l k) k' = if k' = k then none else assocFind l k' := by
  induction l with
  | nil => simp [eraseKey, assocFind]
  | cons p ps ih =>
    by_cases h1 : p.1 = k
    · by_cases h2 : k' = k
      · simp only [eraseKey, h1, if_pos, ih, if_pos h2]
      · have h3 : ¬ p.1 = k' := fun hc => h2 (by rw [← hc, h1])
        have h4 : ¬ k = k' := fun hc => h2 hc.symm
        simp only [eraseKey, h1, if_pos, ih, if_neg h2, assocFind, if_neg h3, if_neg h4]
    · by_cases h2 : p.1 = k'
      · have h3 : ¬ k' = k := fun hc => h1 (by rw [h2, hc])
        simp only [eraseKey, if_neg h1, assocFind, if_pos h2, if_neg h3]
      · simp only [eraseKey, if_neg h1, assocFind, if_neg h2, ih]

theorem assocFind_setItem_self {α : Type} (l : List (String × α)) (k : String) (v : α) :
    assocFind (setItem l k v) k = some v := by
  simp [setItem, assocFind]

theorem assocFind_setItem_ne {α : Type} (l : List (String × α)) (k : String) (v : α)
    (k' : String) (h : k' ≠ k) :
    assocFind (setItem l k v) k' = assocFind l k' := by
  have hk : ¬ k = k' := fun hc => h hc.symm
  simp [setItem, assocFind, hk, assocFind_eraseKey, h]

theorem getItem_setItem_self (l : LocalStorage) (k v : String) :
    getItem (setItem l k v) k = some v := assocFind_setItem_self l k v

theorem getItem_setItem_ne (l : LocalStorage) (k v k' : String) (h : k' ≠ k) :
    getItem (setItem l k v) k' = getItem l k' := assocFind_setItem_ne l k v k' h

theorem assocFind_eq_some_mem {α : Type} (l : List (String × α)) (k : String) (v : α)
    (h : assocFind l k = some v) : (k, v) ∈ l := by
  induction l with
  | nil => simp [assocFind] at h
  | cons p ps ih =>
    obtain ⟨a, b⟩ := p
    by_cases h1 : a = k
    · simp only [assocFind, if_pos h1] at h
      obtain rfl := h1
      obtain rfl : b = v := by injection h
      exact List.mem_cons_self _ _
    · simp only [assocFind, h1, if_neg] at h
      · exact List.mem_cons_of_mem _ (ih h)


theorem get?_set_self_of_lt {α : Type} (l : List α) (r : Nat) (w : α)
    (hr : r < l.length) : (l.set r w).get? r = some w := by
  induction l generalizing r with
  | nil => simp at hr
  | cons a t ih =>
    cases r with
    | zero => rfl
    | succ n => simpa using ih n (by simpa using hr)

theorem getItem_foldl_removeItem (ks : List String) (l : LocalStorage) (k : String) :
    getItem (ks.foldl removeItem l) k = if k ∈ ks then none else getItem l k := by
  induction ks generalizing l with
  | nil => simp
  | cons a t ih =>
    simp only [List.foldl_cons, ih]
    by_cases hka : k = a
    · subst hka
      by_cases hkt : k ∈ t
      · simp [hkt]
      · simp [hkt, removeItem, getItem, assocFind_eraseKey]
    · by_cases hkt : k ∈ t
      · simp [hkt, hka]
      · have : getItem (removeItem l a) k = getItem l k := by
          simp [removeItem, getItem, assocFind_eraseKey, hka]
        simp [hkt, hka, this]

theorem pushStep_inv (s : SyncService.PushTraceState) (e : SyncService.PushEvent)
    (h : pushInv s) : pushInv (SyncService.pushStep s e) := by
  cases e with
  | callSync k v =>
    by_cases hf : s.syncInProgress
    · simpa [SyncService.pushStep, hf, pushInv] using h
    · have hlen : s.inFlight.length = 0 := by simpa [pushInv, hf] using h
      have hnil : s.inFlight = [] := List.length_eq_zero.mp hlen
      simp [SyncService.pushStep, hf, pushInv, hnil]
  | settle =>
    cases hfl : s.inFlight with
    | nil =>
      have hid : SyncService.pushStep s SyncService.PushEvent.settle = s := by
        simp [SyncService.pushStep, hfl]
      rw [hid]; exact h
    | cons p rest =>
      have h2 : (p :: rest).length = (if s.syncInProgress then 1 else 0) := by
        rw [← hfl]; exact h
      by_cases hf : s.syncInProgress
      · have : rest.length = 0 := by simpa [hf] using h2
        obtain ⟨k, v⟩ := p
        simp [SyncService.pushStep, hfl, pushInv, this]
      · simp [hf] at h2

theorem foldl_pushStep_inv (evts : List SyncService.PushEvent)
    (s : SyncService.PushTraceState) (h : pushInv s) :
    pushInv (evts.foldl SyncService.pushStep s) := by
  induction evts generalizing s with
  | nil => exact h
  | cons e es ih => exact ih _ (pushStep_inv s e h)

theorem mergeKeyStep_getItem_other (snap : RemoteRows) (st : LocalStorage × RemoteRows)
    (key k : String) (h : k ≠ key) :
    getItem (SyncService.mergeKeyStep snap st key).1 k = getItem st.1 k := by
  unfold SyncService.mergeKeyStep
  dsimp only
  split_ifs <;> simp [getItem_setItem_ne _ _ _ _ h]

theorem foldl_mergeKeyStep_not_mem (snap : RemoteRows) (keys : List String)
    (st : LocalStorage × RemoteRows) (k : String) (h : k ∉ keys) :
    getItem ((keys.foldl (SyncService.mergeKeyStep snap) st)).1 k = getItem st.1 k := by
  induction keys generalizing st with
  | nil => rfl
  | cons a l ih =>
    have h1 : k ≠ a := fun hc => h (hc ▸ List.mem_cons_self a l)
    have h2 : k ∉ l := fun hc => h (List.mem_cons_of_mem _ hc)
    simp only [List.foldl_cons]
    rw [ih _ h2, mergeKeyStep_getItem_other _ _ _ _ h1]

theorem foldl_mergeKeyStep_mem (snap : RemoteRows) (keys : List String)
    (st : LocalStorage × RemoteRows) (k lv sv : String)
    (hnd : keys.Nodup) (hk : k ∈ keys)
    (hl : getItem st.1 k = some lv)
    (hlv : SyncService.emptyish (some lv) = false)
    (hs : getItem snap k = some sv)
    (hsv : SyncService.emptyish (some sv) = false) :
    getItem ((keys.foldl (SyncService.mergeKeyStep snap) st)).1 k = some sv := by
  have hlv0 : (lv == "") = false := by
    have h' := hlv
    simp only [SyncService.emptyish, Bool.or_eq_false_iff] at h'
    exact h'.1.1
  have hsv0 : (sv == "") = false := by
    have h' := hsv
    simp only [SyncService.emptyish, Bool.or_eq_false_iff] at h'
    exact h'.1.1
  have t1 : SyncService.truthy (some lv) = true := by
    simp [SyncService.truthy, hlv0]
  have t2 : SyncService.truthy (some sv) = true := by
    simp [SyncService.truthy, hsv0]
  induction keys generalizing st with
  | nil => cases hk
  | cons a l ih =>
    rw [List.nodup_cons] at hnd
    by_cases hka : k = a
    · subst hka
      simp only [List.foldl_cons]
      rw [foldl_mergeKeyStep_not_mem _ _ _ _ hnd.1]
      unfold SyncService.mergeKeyStep
      dsimp only
      rw [hl, hs]
      simp [t1, t2, hlv, hsv, getItem_setItem_self]
    · have hkl : k ∈ l := (List.mem_cons.mp hk).resolve_left hka
      simp only [List.foldl_cons]
      apply ih _ hnd.2 hkl
      rw [mergeKeyStep_getItem_other _ _ _ _ hka]
      exact hl

theorem autoSync_foldl_last (writes : List (String × String)) (w : String × String)
    (hall : ∀ x ∈ writes, x.1 ∈ SyncService.storageKeys)
    (hlast : writes.getLast? = some w) (s : SyncService.AutoSyncState) :
    (writes.foldl (fun st p => SyncService.autoSyncWrite st p.1 p.2) s).syncTimeout
      = some w := by
  induction writes generalizing s with
  | nil => simp at hlast
  | cons a l ih =>
    cases l with
    | nil =>
      have hw : a = w := by simpa using hlast
      subst hw
      have ha := hall a (List.mem_cons_self a [])
      simp [SyncService.autoSyncWrite, ha]
    | cons b m =>
      have h2 : (b :: m).getLast? = some w := by
        rw [← List.getLast?_cons_cons]
        exact hlast
      exact ih (fun x hx => hall x (List.mem_cons_of_mem _ hx)) h2 _

/-- C1: evaluation of the startup merge at the failing input of the claim.
With non-empty local attendance data and a remote store holding no rows at
all for the owner, loadFromSupabase is claimed to leave the remote store
with a row carrying the local value; instead the code path calls the
nonexistent method saveToSupabase, the TypeError is caught and the method
returns false with the remote store still empty. -/
theorem c1_startup_merge_empty_remote_uploads_nothing :
    SyncService.loadFromSupabase
        [("schoolPlatform_attendance", "\x7b\"a\":\"present\"\x7d")] [] =
      ([("schoolPlatform_attendance", "\x7b\"a\":\"present\"\x7d")], [], false) := by
  decide

/-- C2 counterexample: with both stores non-empty and differing, mergeData of
data-sync.js does not make the local value equal the pre-merge remote value:
the spread merge keeps the local-only top level field b, so the post-merge
local attendance differs from the serialized remote value. -/
theorem c2_mergeData_counterexample :
    getItem (DataSync.mergeData [("attendance", JSVal.obj [("a", JSVal.str "3")])]
        [("schoolPlatform_attendance", "\x7b\"a\":\"1\",\"b\":\"2\"\x7d")])
      "schoolPlatform_attendance" = some "\x7b\"a\":\"3\",\"b\":\"2\"\x7d" ∧
    ("\x7b\"a\":\"3\",\"b\":\"2\"\x7d" : String) ≠
      jsonStringify (JSVal.obj [("a", JSVal.str "3")]) := by
  constructor
  · rfl
  · decide

/-- C2 amended: in the startup merge loadFromSupabase of part_006, for a
managed key whose local value is non-empty (not empty string, empty object,
empty array or the string null) and whose fetched server value is non-empty,
the post-merge local value equals the pre-merge server value: remote wins
and overwrites local entirely.  The mergeData path of data-sync.js instead
spread-merges and lets local-only top level fields survive. -/
theorem c2_remote_wins_in_loadFromSupabase (localStore : LocalStorage)
    (remote : RemoteRows) (k lv sv : String)
    (hk : k ∈ SyncService.storageKeys)
    (hl : getItem localStore k = some lv)
    (hlv : SyncService.nonEmptyLocalCheck (some lv) = true)
    (hs : getItem (SyncService.buildServerDataMap remote) k = some sv)
    (hsv : SyncService.emptyish (some sv) = false) :
    getItem (SyncService.loadFromSupabase localStore remote).1 k = some sv := by
  have hrm : remote ≠ [] := by
    intro he
    subst he
    simp [SyncService.buildServerDataMap, getItem, assocFind] at hs
  have hserver : remote.isEmpty = false := by
    cases remote with
    | nil => exact absurd rfl hrm
    | cons a t => rfl
  have hemp : SyncService.emptyish (some lv) = false := by
    have h' := hlv
    simp only [SyncService.nonEmptyLocalCheck, Bool.not_eq_true',
      Bool.or_eq_false_iff] at h'
    simp only [SyncService.emptyish, Bool.or_eq_false_iff]
    exact ⟨⟨h'.1.1.1, h'.1.1.2⟩, h'.1.2⟩
  have hex : SyncService.storageKeys.any
      (fun k' => SyncService.nonEmptyLocalCheck (getItem localStore k')) = true := by
    rw [List.any_eq_true]
    exact ⟨k, hk, by rw [hl]; exact hlv⟩
  unfold SyncService.loadFromSupabase
  dsimp only
  rw [hserver, hex]
  simp only [Bool.not_false, if_true, ite_true]
  exact foldl_mergeKeyStep_mem _ _ _ _ _ _ (by decide) hk hl hemp hs hsv

/-- C2 witness: the amended theorem applied at the example of the spec, local
attendance present and remote attendance absent, giving the remote value. -/
theorem c2_remote_wins_witness :
    getItem (SyncService.loadFromSupabase
        [("schoolPlatform_attendance", "\x7b\"a\":\"present\"\x7d")]
        [("schoolPlatform_attendance", "\x7b\"a\":\"absent\"\x7d")]).1
      "schoolPlatform_attendance" = some "\x7b\"a\":\"absent\"\x7d" :=
  c2_remote_wins_in_loadFromSupabase _ _ _ "\x7b\"a\":\"present\"\x7d" _
    (by decide) rfl (by decide) rfl (by decide)

/-- C3 counterexample: a write to the managed key attendance followed within
the debounce window by a write to the managed key classRecords leaves only
one pending timer, the one for classRecords: the shared syncTimeout field
means the second write cancels the push scheduled for the first key, so no
push for attendance is ever issued. -/
theorem c3_debounce_counterexample :
    SyncService.pushesAfterQuiet
        [("schoolPlatform_attendance", "v1"), ("schoolPlatform_classRecords", "v2")] =
      [("schoolPlatform_classRecords", "v2")] ∧
    ("schoolPlatform_attendance", "v1") ∉
      SyncService.pushesAfterQuiet
        [("schoolPlatform_attendance", "v1"), ("schoolPlatform_classRecords", "v2")] := by
  decide

/-- C3 amended: the debounce of enableAutoSync is global, not per key: one
shared timer holds the single pending push.  For a burst of writes all to
managed keys followed by a quiet period, exactly one push fires, carrying
the key and value of the last write of the burst; in particular N writes to
one key coalesce into one push of the last value, but a write to a different
managed key within the window cancels the pending push of the previous
key. -/
theorem c3_debounce_global_last_write_wins (writes : List (String × String))
    (w : String × String)
    (hall : ∀ x ∈ writes, x.1 ∈ SyncService.storageKeys)
    (hlast : writes.getLast? = some w) :
    SyncService.pushesAfterQuiet writes = [w] := by
  unfold SyncService.pushesAfterQuiet
  rw [autoSync_foldl_last writes w hall hlast]
  rfl

/-- C3 witness: three rapid writes to attendance coalesce into exactly one
push carrying the third value. -/
theorem c3_debounce_witness :
    SyncService.pushesAfterQuiet
        [("schoolPlatform_attendance", "V1"), ("schoolPlatform_attendance", "V2"),
         ("schoolPlatform_attendance", "V3")] =
      [("schoolPlatform_attendance", "V3")] :=
  c3_debounce_global_last_write_wins _ _ (by decide) (by decide)

/-- C4 counterexample: a syncToSupabase call arriving while a push is in
flight returns false at the syncInProgress guard and its value is dropped;
after the in-flight push settles no follow-up push exists, so the remote
store ends with the first value and the second value was never propagated,
contradicting the claimed queued follow-up push. -/
theorem c4_inflight_drop_counterexample :
    SyncService.runPushTrace
        [SyncService.PushEvent.callSync "schoolPlatform_attendance" "v1",
         SyncService.PushEvent.callSync "schoolPlatform_attendance" "v2",
         SyncService.PushEvent.settle] =
      { syncInProgress := false, inFlight := [],
        remote := [("schoolPlatform_attendance", "v1")],
        droppedPushes := [("schoolPlatform_attendance", "v2")] } := by
  decide

/-- C4 amended: pushes are serialized, and in fact globally so: along any
trace of push calls and settlings at most one push is ever in flight, the
syncInProgress flag blocking any second push for any key.  However a call
arriving while a push is in flight is not queued: it returns false at the
guard and its value is dropped from remote propagation. -/
theorem c4_push_serialization_and_drop :
    (∀ evts, (SyncService.runPushTrace evts).inFlight.length ≤ 1) ∧
    (∀ (s : SyncService.PushTraceState) (k v : String), s.syncInProgress = true →
      SyncService.pushStep s (SyncService.PushEvent.callSync k v) =
        { s with droppedPushes := s.droppedPushes ++ [(k, v)] }) := by
  constructor
  · intro evts
    have h := foldl_pushStep_inv evts
      { syncInProgress := false, inFlight := [], remote := [], droppedPushes := [] }
      (by simp [pushInv])
    unfold pushInv at h
    unfold SyncService.runPushTrace
    rw [h]
    split <;> simp
  · intro s k v hf
    simp [SyncService.pushStep, hf]

/-- C4 witness: the amended theorem applied to a concrete trace and to a
concrete state with a push in flight. -/
theorem c4_push_witness :
    (SyncService.runPushTrace
        [SyncService.PushEvent.callSync "a" "v1",
         SyncService.PushEvent.callSync "a" "v2"]).inFlight.length ≤ 1 ∧
    SyncService.pushStep
        { syncInProgress := true, inFlight := [("a", "v1")], remote := [],
          droppedPushes := [] }
        (SyncService.PushEvent.callSync "a" "v2") =
      { syncInProgress := true, inFlight := [("a", "v1")], remote := [],
        droppedPushes := [("a", "v2")] } :=
  ⟨c4_push_serialization_and_drop.1 _,
   c4_push_serialization_and_drop.2 _ "a" "v2" rfl⟩

/-- C5: evaluation of the auth-state-change path at the failing input of the
claim.  A session whose initialization ended disabled has isInitialized set;
when the authStateChanged listener re-runs initialize after a sign-in, the
isInitialized guard returns the cached isEnabled at once without re-checking
authentication, so the session is not promoted to enabled, contrary to the
claim (and to the evident purpose of the listener). -/
theorem c5_auth_event_does_not_reenable :
    SyncService.onAuthStateChanged
        { isInitialized := true, isEnabled := false } true true =
      { isInitialized := true, isEnabled := false } := by
  decide

/-- C6: a local write through the overridden setItem whose remote push fails
still commits the value to local storage, leaves the remote rows unchanged,
and no exception propagates to the caller of the write: the push is
fire-and-forget and its errors are caught inside the adapter. -/
theorem c6_failed_push_preserves_local_write (localStore : LocalStorage)
    (remote : RemoteRows) (authenticated : Bool) (key value : String) :
    getItem
        (StorageAdapter.overriddenSetItem localStore remote authenticated true
          key value).1 key = some value ∧
    (StorageAdapter.overriddenSetItem localStore remote authenticated true
        key value).2.1 = remote ∧
    (StorageAdapter.overriddenSetItem localStore remote authenticated true
        key value).2.2 = false := by
  cases hm : StorageAdapter.isManagedKey key <;> cases authenticated <;>
    simp [StorageAdapter.overriddenSetItem, StorageAdapter.syncToSupabase, hm,
      getItem_setItem_self]

/-- C7: after clearAllLocalData, which signOut runs, every key with the
schoolPlatform_ prefix, in particular every managed key of the fixed
enumeration, is gone from local storage, and a subsequent read through
DataService.get with the fresh cache of the post-redirect page returns the
caller supplied default. -/
theorem c7_signout_clears_managed_keys (localStore : LocalStorage) (key : String)
    (d : JSVal) (h : keyHasPfx "schoolPlatform_" key = true) :
    getItem (AuthService.clearAllLocalData localStore) key = none ∧
    (DataService.get [] (AuthService.clearAllLocalData localStore) key d).1 = d := by
  have hnone : getItem (AuthService.clearAllLocalData localStore) key = none := by
    unfold AuthService.clearAllLocalData
    rw [getItem_foldl_removeItem]
    split_ifs with hmem
    · rfl
    · cases hg : getItem localStore key with
      | none => rfl
      | some v =>
        exfalso
        apply hmem
        have hm2 : (key, v) ∈ localStore := assocFind_eq_some_mem _ _ _ hg
        unfold AuthService.keysToRemove
        exact List.mem_map.mpr
          ⟨(key, v), List.mem_filter.mpr ⟨hm2, by simp [AuthService.clearablePred, h]⟩, rfl⟩
  refine ⟨hnone, ?_⟩
  simp [DataService.get, assocFind, hnone]

/-- C7 witness: the theorem applied to a store holding attendance data and an
unmanaged key; the managed key is cleared and reads as the default. -/
theorem c7_signout_witness :
    getItem (AuthService.clearAllLocalData
        [("schoolPlatform_attendance", "\x7b\"a\":\"present\"\x7d"), ("other", "1")])
      "schoolPlatform_attendance" = none ∧
    (DataService.get []
        (AuthService.clearAllLocalData
          [("schoolPlatform_attendance", "\x7b\"a\":\"present\"\x7d"), ("other", "1")])
        "schoolPlatform_attendance" JSVal.null).1 = JSVal.null :=
  c7_signout_clears_managed_keys _ _ _ (by decide)

/-- C8 counterexample: reading a malformed stored string through
SyncService.getData does not return the caller supplied default: the parse
error is caught and the raw string itself is returned. -/
theorem c8_getData_counterexample :
    (SyncService.getData false [("schoolPlatform_teacherProfile", "not json")] []
        "schoolPlatform_teacherProfile" JSVal.null).1 = JSVal.str "not json" ∧
    JSVal.str "not json" ≠ JSVal.null := by
  constructor
  · rfl
  · intro hc
    exact JSVal.noConfusion hc

/-- C8 amended: a malformed stored string never makes a read throw, but the
three read paths disagree on the result: DataService.get catches the parse
error and returns the caller supplied default, DataSync.getLocalData catches
and returns the empty object, while SyncService.getData catches and returns
the raw string instead of the default. -/
theorem c8_malformed_json_read_behavior (localStore : LocalStorage) (key s : String)
    (d : JSVal) (h1 : getItem localStore key = some s) (h2 : (s == "") = false)
    (h3 : jsonParse s = none) :
    (DataService.get [] localStore key d).1 = d ∧
    DataSync.getLocalData localStore key = JSVal.obj [] ∧
    (SyncService.getData false localStore [] key d).1 = JSVal.str s := by
  refine ⟨?_, ?_, ?_⟩
  · simp [DataService.get, assocFind, h1, h3]
  · simp [DataSync.getLocalData, h1, h2, h3]
  · simp [SyncService.getData, h1, h2, h3]

/-- C8 witness: the amended theorem applied to a store holding a malformed
string. -/
theorem c8_malformed_witness :
    (DataService.get [] [("k", "not json")] "k" JSVal.null).1 = JSVal.null ∧
    DataSync.getLocalData [("k", "not json")] "k" = JSVal.obj [] ∧
    (SyncService.getData false [("k", "not json")] [] "k" JSVal.null).1 =
      JSVal.str "not json" :=
  c8_malformed_json_read_behavior _ "k" "not json" JSVal.null rfl rfl rfl

/-- C9: a write to a key outside the managed enumeration, either without the
schoolPlatform_ prefix or with the prefix but matching no recognized record
set shape, never issues a remote upsert: the adapter routing leaves the
remote rows unchanged and the auto-sync debouncer never schedules a push for
it. -/
theorem c9_unmanaged_keys_never_mirrored (localStore : LocalStorage)
    (remote : RemoteRows) (authenticated pushFails : Bool) (key value : String)
    (s : SyncService.AutoSyncState)
    (h : StorageAdapter.routesToDataService key = false) :
    (StorageAdapter.overriddenSetItem localStore remote authenticated pushFails
        key value).2.1 = remote ∧
    SyncService.autoSyncWrite s key value = s := by
  constructor
  · cases hm : StorageAdapter.isManagedKey key <;>
      cases authenticated <;> cases pushFails <;>
      simp [StorageAdapter.overriddenSetItem, StorageAdapter.syncToSupabase, hm, h]
  · have hns : key ∉ SyncService.storageKeys := by
      intro hmem
      simp only [SyncService.storageKeys, List.mem_cons, List.mem_singleton,
        List.not_mem_nil, or_false] at hmem
      rcases hmem with rfl | rfl | rfl | rfl <;> exact absurd h (by decide)
    simp [SyncService.autoSyncWrite, hns]

/-- C9 witness: the theorem applied to the prefixed but unrecognized key
schoolPlatform_grades. -/
theorem c9_unmanaged_witness :
    (StorageAdapter.overriddenSetItem [] [] true false "schoolPlatform_grades"
        "\x7b\x7d").2.1 = [] ∧
    SyncService.autoSyncWrite { syncTimeout := none } "schoolPlatform_grades"
        "\x7b\x7d" = { syncTimeout := none } :=
  c9_unmanaged_keys_never_mirrored [] [] true false "schoolPlatform_grades"
    "\x7b\x7d" { syncTimeout := none } (by decide)

/-- C10: after DataService.set stores an object, DataService.get returns the
very reference kept in the cache rather than a re-parse of the serialized
store; an in-place mutation of the object is therefore observable through a
later get without any further set, while local storage still holds the
serialization taken at set time. -/
theorem c10_get_returns_cached_reference (cache : DataService.RefCache)
    (localStore : LocalStorage) (h : DataService.Heap) (key : String) (r : Nat)
    (w : JSVal) (hr : r < h.length) :
    (DataService.getH (DataService.setH cache localStore h key r).1
        (DataService.setH cache localStore h key r).2 h key).1 = some r ∧
    getItem (DataService.setH cache localStore h key r).2 key =
      some (jsonStringify (DataService.heapGet h r)) ∧
    DataService.heapGet (DataService.heapSet h r w) r = w ∧
    (DataService.getH (DataService.setH cache localStore h key r).1
        (DataService.setH cache localStore h key r).2 (DataService.heapSet h r w)
        key).1 = some r := by
  refine ⟨?_, ?_, ?_, ?_⟩
  · simp [DataService.getH, DataService.setH, assocFind_setItem_self]
  · exact getItem_setItem_self _ _ _
  · unfold DataService.heapGet DataService.heapSet
    rw [get?_set_self_of_lt _ _ _ hr]
    rfl
  · simp [DataService.getH, DataService.setH, assocFind_setItem_self]

/-- C10 witness: the theorem applied to a one-object heap; the cached
reference is returned, the store holds the serialization of the object at
set time, and the mutated object is visible through the reference. -/
theorem c10_cached_reference_witness :
    (DataService.getH
        (DataService.setH [] [] [JSVal.obj []] "k" 0).1
        (DataService.setH [] [] [JSVal.obj []] "k" 0).2 [JSVal.obj []] "k").1 =
      some 0 ∧
    getItem (DataService.setH [] [] [JSVal.obj []] "k" 0).2 "k" =
      some (jsonStringify (DataService.heapGet [JSVal.obj []] 0)) ∧
    DataService.heapGet (DataService.heapSet [JSVal.obj []] 0 (JSVal.str "x")) 0 =
      JSVal.str "x" ∧
    (DataService.getH
        (DataService.setH [] [] [JSVal.obj []] "k" 0).1
        (DataService.setH [] [] [JSVal.obj []] "k" 0).2
        (DataService.heapSet [JSVal.obj []] 0 (JSVal.str "x")) "k").1 = some 0 :=
  c10_get_returns_cached_reference [] [] [JSVal.obj []] "k" 0 (JSVal.str "x")
    (by decide)
